import Mathlib

/-!
Verification of the practet-dashboard admin-theming subsystem.

Shallow embedding of the Python sources `src/settings.py` and
`src/templatetags/dashub.py`.  Python dicts with string keys are embedded as
association lists, Python exceptions as an explicit `Except PyErr` result,
machine integers as `Int`/`Nat`.  Functions of this repository that live in
`..utils` (not part of the given sources) are modelled from the specification
and marked as such in their doc comments.
-/

namespace Practet

/-- Python exception values that the embedded code can raise. -/
inductive PyErr where
  | typeError (msg : String)
  | keyError (msg : String)
  | valueError (msg : String)
  | attributeError (msg : String)
deriving Repr, DecidableEq

/-- Lookup in an association list embedding a Python dict (`d.get(k)`);
returns the first binding, as Python dicts hold each key once. -/
def dictGet {α : Type} (d : List (String × α)) (k : String) : Option α :=
  match d.find? (fun p => p.1 == k) with
  | some p => some p.2
  | Option.none => Option.none

/-- Embeds `d[k] = v` on a Python dict: replaces the binding in place when the
key exists, otherwise appends it, preserving insertion order. -/
def dictSet {α : Type} (d : List (String × α)) (k : String) (v : α) : List (String × α) :=
  match d with
  | [] => [(k, v)]
  | p :: rest => if p.1 = k then (k, v) :: rest else p :: dictSet rest k v

/-- Embeds `d.update(us)` on Python dicts. -/
def dictUpdate {α : Type} (d us : List (String × α)) : List (String × α) :=
  us.foldl (fun acc p => dictSet acc p.1 p.2) d

/-- Embeds `d[k]` on a Python dict: `KeyError` when the key is missing. -/
def pyGetItem {α : Type} (d : List (String × α)) (k : String) : Except PyErr α :=
  match dictGet d k with
  | some v => Except.ok v
  | Option.none => Except.error (PyErr.keyError k)

/-- Embeds Python `str.lower()` character by character (`Char.toLower`
lower-cases the ASCII letters, which covers every identifier this code
lower-cases). -/
def pyLower (s : String) : String :=
  String.mk (s.data.map Char.toLower)

/-- Universe of Python values stored in the settings dict, restricted to the
shapes `settings.py` manipulates: `none` is Python `None`, `strlist` a list of
strings, `strdict` a dict of strings to strings, `rgb` the 3-tuple produced by
`hex_to_rgb`.  Structured values that settings resolution never inspects
(e.g. the link lists under `topmenu_links`/`custom_links`) are represented by
the empty `strlist`/`strdict` defaults they start from. -/
inductive Value where
  | none
  | str (s : String)
  | bool (b : Bool)
  | strlist (xs : List String)
  | strdict (xs : List (String × String))
  | rgb (r g b : Nat)
deriving Repr, DecidableEq

/-- Python truthiness of an embedded settings value. -/
def Value.truthy : Value → Bool
  | Value.none => false
  | Value.str s => s ≠ ""
  | Value.bool b => b
  | Value.strlist xs => !xs.isEmpty
  | Value.strdict xs => !xs.isEmpty
  | Value.rgb _ _ _ => true

/-- Embeds `DEFAULT_SETTINGS` from `src/settings.py`. -/
def DEFAULT_SETTINGS : List (String × Value) :=
  [("site_title", Value.str "Admin Dashboard"),
   ("site_header", Value.none),
   ("site_brand", Value.none),
   ("site_logo", Value.str "https://cdn.practet.com/static/logo-new.webp"),
   ("site_icon", Value.none),
   ("topmenu_links", Value.strlist []),
   ("hide_apps", Value.strlist []),
   ("hide_models", Value.strlist []),
   ("order_with_respect_to", Value.strlist []),
   ("order_menus", Value.strlist []),
   ("custom_links", Value.strdict []),
   ("icons", Value.strdict [("auth", "fas fa-users-cog"), ("auth.user", "fas fa-user"),
                            ("auth.Group", "fas fa-users")]),
   ("default_icon_parents", Value.str "fas fa-chevron-circle-right"),
   ("default_icon_children", Value.str "fas fa-circle"),
   ("custom_css", Value.none),
   ("custom_js", Value.none),
   ("changeform_format", Value.str "horizontal_tabs"),
   ("changeform_format_overrides", Value.strdict []),
   ("language_chooser", Value.bool false),
   ("theme_color", Value.str "#e31837")]

/-- Numeric value of a hexadecimal digit character, `Option.none` for
non-hex characters. -/
def hexVal (c : Char) : Option Nat :=
  let n := c.toNat
  if 48 ≤ n ∧ n ≤ 57 then some (n - 48)
  else if 97 ≤ n ∧ n ≤ 102 then some (n - 87)
  else if 65 ≤ n ∧ n ≤ 70 then some (n - 55)
  else Option.none

/-- Value of a two-hex-digit channel, `Option.none` when either character is
not a hex digit. -/
def hexPair (a b : Char) : Option Nat :=
  match hexVal a, hexVal b with
  | some x, some y => some (x * 16 + y)
  | _, _ => Option.none

/-- Drops the optional leading `#` of a hex color string. -/
def stripHash (cs : List Char) : List Char :=
  match cs with
  | '#' :: rest => rest
  | cs => cs

/-- Channel values of a hex color body: exactly 6 hex digits parsed as three
two-digit channels, `Option.none` otherwise. -/
def hexChannels : List Char → Option (Nat × Nat × Nat)
  | [c1, c2, c3, c4, c5, c6] =>
    match hexPair c1 c2, hexPair c3 c4, hexPair c5 c6 with
    | some r, some g, some b => some (r, g, b)
    | _, _, _ => Option.none
  | _ => Option.none

/-- Modelled from the spec: `hex_to_rgb` is imported from `..utils`, which is
not under `src/`.  Per the spec (section 4.1) it parses a `#RRGGBB` hex string
(exactly 6 hex digits after an optional leading `#`) into a 3-tuple of
integers 0 to 255 and fails with a `ValueError` equivalent on any malformed
string. -/
def hex_to_rgb (s : String) : Except PyErr (Nat × Nat × Nat) :=
  match hexChannels (stripHash s.data) with
  | some p => Except.ok p
  | Option.none => Except.error (PyErr.valueError "malformed hex color")

/-- Decides whether a string has the `#RRGGBB` well-formed shape the spec
describes: exactly 6 hex digits after an optional leading `#`. -/
def isHexForm (s : String) : Bool :=
  (hexChannels (stripHash s.data)).isSome

/-- Embeds the `hide_apps`/`hide_models` normalization of `get_settings`:
wrap a single string into a one-element list, then `[x.lower() for x in v]`.
Iterating a dict yields its keys; iterating a non-iterable value raises
`TypeError`, and iterating the numeric components of an `rgb` tuple raises
`AttributeError` on `.lower()`. -/
def normalizeHideList (v : Value) : Except PyErr Value :=
  let v := match v with
    | Value.str s => Value.strlist [s]
    | v => v
  match v with
  | Value.strlist xs => Except.ok (Value.strlist (xs.map pyLower))
  | Value.strdict fs => Except.ok (Value.strlist (fs.map (fun p => pyLower p.1)))
  | Value.rgb _ _ _ => Except.error (PyErr.attributeError "int object has no attribute lower")
  | _ => Except.error (PyErr.typeError "argument is not iterable")

/-- Embeds the dict comprehensions of `get_settings` that lower-case every key
and value of `icons` and of `changeform_format_overrides`; a value without
`.items()` raises `AttributeError`. -/
def lowerStrDict (v : Value) : Except PyErr Value :=
  match v with
  | Value.strdict fs => Except.ok (Value.strdict (fs.map (fun p => (pyLower p.1, pyLower p.2))))
  | _ => Except.error (PyErr.attributeError "object has no attribute items")

/-- Embeds the derivation of `theme_color_rgb`
(`hex_to_rgb(practet_settings.get("theme_color", "#30AA99"))`): `hex_to_rgb`
operates on a string, so a non-string value fails. -/
def themeColorValue (v : Value) : Except PyErr Value :=
  match v with
  | Value.str s => (hex_to_rgb s).map (fun p => Value.rgb p.1 p.2.1 p.2.2)
  | _ => Except.error (PyErr.typeError "theme color must be a string")

/-- Embeds `get_settings` from `src/settings.py`.  `userSettings` stands for
`settings.PRACTET_DASHBOARD_SETTINGS` (a Python dict, so its keys are
distinct).  Steps, in source order: drop null overrides and merge over the
defaults; normalize `hide_apps` and `hide_models`; lower-case `icons`;
default `site_icon` to `site_logo`; lower-case `changeform_format_overrides`;
derive `theme_color_rgb` via `hex_to_rgb`. -/
def get_settings (userSettings : List (String × Value)) : Except PyErr (List (String × Value)) := do
  let practet := dictUpdate DEFAULT_SETTINGS (userSettings.filter (fun p => p.2 ≠ Value.none))
  let ha ← pyGetItem practet "hide_apps"
  let ha ← normalizeHideList ha
  let practet := dictSet practet "hide_apps" ha
  let hm ← pyGetItem practet "hide_models"
  let hm ← normalizeHideList hm
  let practet := dictSet practet "hide_models" hm
  let ic ← lowerStrDict ((dictGet practet "icons").getD (Value.strdict []))
  let practet := dictSet practet "icons" ic
  let si ← pyGetItem practet "site_icon"
  let sl ← pyGetItem practet "site_logo"
  let practet := dictSet practet "site_icon" (if si.truthy then si else sl)
  let cf ← lowerStrDict ((dictGet practet "changeform_format_overrides").getD (Value.strdict []))
  let practet := dictSet practet "changeform_format_overrides" cf
  let rgbv ← themeColorValue ((dictGet practet "theme_color").getD (Value.str "#30AA99"))
  Except.ok (dictSet practet "theme_color_rgb" rgbv)

/-- Decides whether an `Except` result is a success. -/
def exceptIsOk {ε α : Type} : Except ε α → Bool
  | Except.ok _ => true
  | Except.error _ => false

instance {ε α : Type} [DecidableEq ε] [DecidableEq α] : DecidableEq (Except ε α) := fun x y =>
  match x, y with
  | Except.ok a, Except.ok b =>
    if h : a = b then isTrue (by rw [h]) else isFalse (fun hh => h (Except.ok.inj hh))
  | Except.error e, Except.error f =>
    if h : e = f then isTrue (by rw [h]) else isFalse (fun hh => h (Except.error.inj hh))
  | Except.ok _, Except.error _ => isFalse (fun hh => Except.noConfusion hh)
  | Except.error _, Except.ok _ => isFalse (fun hh => Except.noConfusion hh)

/-! ## Change-form template selection (`src/templatetags/dashub.py`, lines 430-479) -/

/-- Embeds `CHANGEFORM_TEMPLATES` from `src/settings.py`. -/
def CHANGEFORM_TEMPLATES : List (String × String) :=
  [("single", "practet_dashboard/includes/single.html"),
   ("carousel", "practet_dashboard/includes/carousel.html"),
   ("collapsible", "practet_dashboard/includes/collapsible.html"),
   ("horizontal_tabs", "practet_dashboard/includes/horizontal_tabs.html"),
   ("vertical_tabs", "practet_dashboard/includes/vertical_tabs.html")]

/-- Lookup in `CHANGEFORM_TEMPLATES`; `isSome` on a key embeds
`key in CHANGEFORM_TEMPLATES.keys()`. -/
def ctLookup (k : String) : Option String :=
  dictGet CHANGEFORM_TEMPLATES k

/-- Embeds `CHANGEFORM_TEMPLATES[k]` at the places where the source indexes the
dict with a key it has just checked to be present (the `Option.none` branch is
unreachable there). -/
def ctGet (k : String) : String :=
  (ctLookup k).getD ""

/-- Abstraction of the `adminform` argument of the template selectors.
`has_fieldsets` is the result of `has_fieldsets_check(adminform)`; that helper
lives in `..utils`, which is not under `src/`, so this field is modelled from
the spec as "whether the model has grouped fieldsets".  `inlines` embeds
`adminform.model_admin.inlines` (the Python truthiness test
`inlines and len(inlines) > 0` is emptiness of this list), and
`app_label`/`model_name` embed the owning model's `_meta` names. -/
structure AdminFormInfo where
  has_fieldsets : Bool
  inlines : List String
  app_label : String
  model_name : String
deriving Repr, DecidableEq

/-- Settings slice read by the change-form selectors:
`options.get("changeform_format", "")` and
`options.get("changeform_format_overrides", {})`. -/
structure ChangeformOptions where
  changeform_format : String
  changeform_format_overrides : List (String × String)
deriving Repr, DecidableEq

/-- Embeds `get_changeform_template` from `src/templatetags/dashub.py`
(lines 430-453): per-model override lookup, forced `single` layout when the
form has neither fieldsets nor inlines, `horizontal_tabs` fallback for empty
or unknown formats. -/
def get_changeform_template (opts : ChangeformOptions) (af : AdminFormInfo) : String :=
  let has_fieldsets := af.has_fieldsets
  let has_inlines := !af.inlines.isEmpty
  let model_name := pyLower (af.app_label ++ "." ++ af.model_name)
  let changeform_format :=
    match dictGet opts.changeform_format_overrides model_name with
    | some v => v
    | Option.none => opts.changeform_format
  if has_fieldsets = false ∧ has_inlines = false then ctGet "single"
  else if changeform_format = "" ∨ (ctLookup changeform_format).isSome = false then
    ctGet "horizontal_tabs"
  else ctGet changeform_format

/-- Embeds `get_changeform_template_class` from `src/templatetags/dashub.py`
(lines 456-479): same resolution as `get_changeform_template`, returning the
layout name instead of the template path. -/
def get_changeform_template_class (opts : ChangeformOptions) (af : AdminFormInfo) : String :=
  let has_fieldsets := af.has_fieldsets
  let has_inlines := !af.inlines.isEmpty
  let model_name := pyLower (af.app_label ++ "." ++ af.model_name)
  let changeform_format :=
    match dictGet opts.changeform_format_overrides model_name with
    | some v => v
    | Option.none => opts.changeform_format
  if has_fieldsets = false ∧ has_inlines = false then "single"
  else if changeform_format = "" ∨ (ctLookup changeform_format).isSome = false then
    "horizontal_tabs"
  else changeform_format

/-! ## Side-menu construction (`src/templatetags/dashub.py`, lines 47-176) -/

/-- Stable insertion of `a` into `l`, keeping every existing element `b` with
`le b a` before `a`. -/
def insertSorted {α : Type} (le : α → α → Bool) (a : α) : List α → List α
  | [] => [a]
  | b :: bs => if le b a then b :: insertSorted le a bs else a :: b :: bs

/-- Stable sort by the boolean relation `le` (equal elements keep their
original relative order), embedding Python's stable `sorted`.  A stable
sort's output is determined by the key order together with stability, so any
correct stable algorithm embeds `sorted` faithfully. -/
def stableSortBy {α : Type} (le : α → α → Bool) (xs : List α) : List α :=
  xs.foldl (fun acc a => insertSorted le a acc) []

/-- Embeds `sorted(xs, key=key)`. -/
def sortByAsc {α : Type} (key : α → Int) (xs : List α) : List α :=
  stableSortBy (fun x y => decide (key x ≤ key y)) xs

/-- Embeds `sorted(xs, key=key, reverse=True)`: descending by key, ties keep
their original order. -/
def sortByDesc {α : Type} (key : α → Int) (xs : List α) : List α :=
  stableSortBy (fun x y => decide (key y ≤ key x)) xs

/-- Input model descriptor, one entry of `app["models"]` as supplied by the
admin site.  `modelCount` stands for the optional `"model"` key (a model
class), represented by the record count `model.objects.count()` would return;
`order` is the optional `"order"` key. -/
structure InModel where
  object_name : String
  name : String
  admin_url : String
  add_url : String
  modelCount : Option Nat
  order : Option Int
deriving Repr, DecidableEq

/-- Input application descriptor, one entry of the `available_apps` context
list supplied by the admin site. -/
structure InApp where
  name : String
  app_label : String
  app_url : String
  has_module_perms : Bool
  models : List InModel
deriving Repr, DecidableEq

/-- Modelled from the spec: one configured custom link handed to `make_menu`
(`..utils`, not under `src/`).  Per spec section 4.2 a custom link is a direct
name/url pair with an optional order and a permission predicate; `permOk` is
the evaluated outcome of that predicate for the current user (evaluation
errors count as not visible). -/
structure CustomLink where
  name : String
  url : String
  order : Option Int
  permOk : Bool
deriving Repr, DecidableEq

/-- One configured submenu entry under `model_submenus`: either a reference to
another model (`model` key set) or a literal link; `order` is the optional
`"order"` key. -/
structure SubmenuItem where
  name : String
  url : String
  model : Option String
  order : Option Int
deriving Repr, DecidableEq

/-- Output link record: submenu entries and custom links as they appear in the
built menu.  `submenu_str` is the extra key set on resolved model references. -/
structure OutLink where
  name : String
  url : String
  order : Int
  submenu_str : Option String
deriving Repr, DecidableEq

/-- Output model descriptor as rebuilt by `get_side_menu`. -/
structure OutModel where
  object_name : String
  name : String
  url : String
  add_url : String
  count : Nat
  model_str : String
  icon : String
  order : Int
  submenu : Option (List OutLink)
deriving Repr, DecidableEq

/-- One entry of an application's rebuilt `models` list: dicts for models and
dicts for custom links have different key sets, embedded as a sum. -/
inductive MenuItem where
  | model (m : OutModel)
  | link (l : OutLink)
deriving Repr, DecidableEq

/-- Sort key `x.get("order", 0)` of a menu item (both dict shapes carry the
key once rebuilt). -/
def menuItemOrder : MenuItem → Int
  | MenuItem.model m => m.order
  | MenuItem.link l => l.order

/-- Output application descriptor as appended to the built menu. -/
structure OutApp where
  name : String
  app_label : String
  app_url : String
  has_module_perms : Bool
  icon : String
  order : Int
  items : List MenuItem
deriving Repr, DecidableEq

/-- Resolved settings slice read by `get_side_menu` via `options.get(...)`,
with the source defaults for missing keys already applied: `default_orders`
(default `{}`), `custom_links` (default `{}`), `model_submenus` (default `{}`),
`submenus_models` (default `[]`), `hide_apps`/`hide_models` (lower-cased by
`get_settings`), `order_menus` (default `[]`), `icons` (lower-cased by
`get_settings`) and the two default icon classes. -/
structure MenuOptions where
  default_orders : List (String × Int)
  custom_links : List (String × List CustomLink)
  model_submenus : List (String × List SubmenuItem)
  submenus_models : List String
  hide_apps : List String
  hide_models : List String
  order_menus : List String
  icons : List (String × String)
  default_icon_parents : String
  default_icon_children : String
deriving Repr

/-- Embeds `get_model_info` from `src/templatetags/dashub.py` (lines 47-62).
The framework lookup (`model_path.split(".")`, `apps.get_model`, the verbose
name and `reverse(...)`) is external state, embedded as a finite `registry`
from model path to (verbose name, changelist URL); the source catches every
exception of that lookup and falls back to the reference string with a `"#"`
URL. -/
def get_model_info (registry : List (String × String × String)) (model_path : String) :
    String × String :=
  match registry.find? (fun e => e.1 == model_path) with
  | some e => (e.2.1, e.2.2)
  | Option.none => (model_path, "#")

/-- Embeds `slugify(name).replace("-", "")` as used for `submenu_str`:
Django's `slugify` lower-cases, drops non-word punctuation and turns
space/hyphen runs into hyphens, which the `.replace` then removes, leaving
the lower-cased alphanumeric and underscore characters (ASCII input). -/
def submenuStrOf (name : String) : String :=
  String.mk ((pyLower name).data.filter (fun c => c.isAlphanum || c == '_'))

/-- Modelled from the spec: `make_menu` is imported from `..utils`, which is
not under `src/`.  Per spec section 4.2, with `allow_appmenus=False` (the
`custom_links` call site) each configured link resolves to a `{name, url,
order}` record and is kept only when its permission predicate holds for the
current user; predicate evaluation errors count as not visible.  An
unspecified order defaults to 0 (spec section 3). -/
def make_menu (links : List CustomLink) : List OutLink :=
  (links.filter (fun l => l.permOk)).map
    (fun l => { name := l.name, url := l.url, order := l.order.getD 0,
                submenu_str := Option.none })

/-- Embeds the submenu construction of `get_side_menu` (lines 130-142): an
"Add New" link, the link to the model itself, then each configured entry,
with `"model"` references resolved through `get_model_info`; the list is then
sorted by `x["order"]`, descending.  A literal entry without an `"order"` key
makes that final `sorted` raise `KeyError` (`lambda x: x["order"]`); the
error is raised here at the entry instead, with the same error value. -/
def buildSubmenu (opts : MenuOptions) (registry : List (String × String × String))
    (m : InModel) (model_str : String) : Except PyErr (List OutLink) := do
  let base : List OutLink :=
    [{ name := "Add New", url := m.add_url, order := 0, submenu_str := Option.none },
     { name := m.name, url := m.admin_url, order := 0, submenu_str := Option.none }]
  let items ← ((dictGet opts.model_submenus model_str).getD []).mapM (fun si =>
    match si.model with
    | some mp =>
      let info := get_model_info registry mp
      let sstr := submenuStrOf info.1
      Except.ok { name := info.1, url := info.2,
                  order := si.order.getD ((dictGet opts.default_orders sstr).getD 0),
                  submenu_str := some sstr }
    | Option.none =>
      match si.order with
      | some o => Except.ok { name := si.name, url := si.url, order := o,
                              submenu_str := Option.none }
      | Option.none => Except.error (PyErr.keyError "order"))
  Except.ok (sortByDesc (fun l => l.order) (base ++ items))

/-- Embeds the per-model body of the `get_side_menu` loop (lines 119-143):
skip models in `hide_models`, attach `url`, `count`, `model_str`, `icon` and
`order`, and build a submenu for models registered in `submenus_models`. -/
def processModel (opts : MenuOptions) (registry : List (String × String × String))
    (app_label : String) (m : InModel) : Except PyErr (Option MenuItem) :=
  let model_str := pyLower (app_label ++ "." ++ m.object_name)
  if model_str ∈ opts.hide_models then Except.ok Option.none
  else
    let count := m.modelCount.getD 0
    let icon := (dictGet opts.icons model_str).getD opts.default_icon_children
    let order := m.order.getD ((dictGet opts.default_orders model_str).getD 0)
    if model_str ∈ opts.submenus_models then
      (buildSubmenu opts registry m model_str).map (fun sub =>
        some (MenuItem.model
          { object_name := m.object_name, name := m.name, url := m.admin_url,
            add_url := m.add_url, count := count, model_str := model_str,
            icon := icon, order := order, submenu := some sub }))
    else
      Except.ok (some (MenuItem.model
        { object_name := m.object_name, name := m.name, url := m.admin_url,
          add_url := m.add_url, count := count, model_str := model_str,
          icon := icon, order := order, submenu := Option.none }))

/-- Runs `processModel` over an application's model list, collecting the kept
items in order. -/
def processModels (opts : MenuOptions) (registry : List (String × String × String))
    (app_label : String) : List InModel → Except PyErr (List MenuItem)
  | [] => Except.ok []
  | m :: ms => do
    let r ← processModel opts registry app_label m
    let rest ← processModels opts registry app_label ms
    match r with
    | some item => Except.ok (item :: rest)
    | Option.none => Except.ok rest

/-- Embeds the per-application body of the `get_side_menu` loop (lines
109-149): skip applications in `hide_apps`, attach `icon`, compute `order` —
where the source evaluates `order_menus[app_label]` whenever
`app_label in order_menus`, indexing the `order_menus` *list* with a string,
which raises `TypeError` — process the models, append the application's
custom links, and keep the application only when the resulting item list is
non-empty, with its items sorted ascending by order. -/
def processApp (opts : MenuOptions) (registry : List (String × String × String))
    (app : InApp) : Except PyErr (Option OutApp) :=
  if app.app_label ∈ opts.hide_apps then Except.ok Option.none
  else
    let icon := (dictGet opts.icons app.app_label).getD opts.default_icon_parents
    if app.app_label ∈ opts.order_menus then
      Except.error (PyErr.typeError "list indices must be integers or slices, not str")
    else
      let order := (dictGet opts.default_orders app.app_label).getD 0
      (processModels opts registry app.app_label app.models).bind (fun items0 =>
        let menu_items :=
          items0 ++ (make_menu ((dictGet opts.custom_links app.app_label).getD [])).map MenuItem.link
        if menu_items = [] then Except.ok Option.none
        else Except.ok (some
          { name := app.name, app_label := app.app_label, app_url := app.app_url,
            has_module_perms := app.has_module_perms, icon := icon, order := order,
            items := sortByAsc menuItemOrder menu_items }))

/-- Runs `processApp` over the available applications, collecting the kept
descriptors in order. -/
def processApps (opts : MenuOptions) (registry : List (String × String × String)) :
    List InApp → Except PyErr (List OutApp)
  | [] => Except.ok []
  | a :: rest => do
    let r ← processApp opts registry a
    let others ← processApps opts registry rest
    match r with
    | some oa => Except.ok (oa :: others)
    | Option.none => Except.ok others

/-- Lookup in the `order_map` dict of `order_menus_with_order`
(`{label.lower(): index for index, label in enumerate(order_menus)}`):
for duplicate lower-cased labels the later index wins, as in a Python dict
comprehension. -/
def orderMapGet (order_menus : List String) (lbl : String) : Option Int :=
  match (order_menus.enum.filter (fun p => pyLower p.2 == lbl)).getLast? with
  | some p => some (Int.ofNat p.1)
  | Option.none => Option.none

/-- Embeds the submenu re-sort inside `sort_models`
(`model["submenu"].sort(key=lambda x: x.get("order", 0), reverse=True)`). -/
def sortSubmenusInItem (it : MenuItem) : MenuItem :=
  match it with
  | MenuItem.model m =>
    MenuItem.model { m with submenu := m.submenu.map (sortByDesc (fun l => l.order)) }
  | MenuItem.link l => MenuItem.link l

/-- Embeds `sort_models` from `order_menus_with_order` (lines 165-170):
re-sort each model's submenu descending, then sort the items descending by
`x.get("order", 0)`. -/
def sort_models (items : List MenuItem) : List MenuItem :=
  sortByDesc menuItemOrder (items.map sortSubmenusInItem)

/-- Embeds `order_menus_with_order` from `src/templatetags/dashub.py`
(lines 154-176): sort every application's items (and submenus) descending,
then sort the applications descending by `get_order_index`, which is the
application's position in `order_menus` (lower-cased lookup) when listed and
its previously assigned `order` otherwise. -/
def order_menus_with_order (menu : List OutApp) (order_menus : List String) : List OutApp :=
  let menu := menu.map (fun a => { a with items := sort_models a.items })
  sortByDesc (fun a => (orderMapGet order_menus (pyLower a.app_label)).getD a.order) menu

/-- Embeds `get_side_menu` from `src/templatetags/dashub.py` (lines 66-151).
`userPresent` is the truthiness of `context.get("user")`; `installed_apps`
stands for `get_installed_apps()` (`..utils`, modelled per its use here as
the lower-cased labels of installed applications); `available_apps` is the
context's app list and `site_app_list` the `admin.site.get_app_list(request)`
fallback used when it is empty.  For every application configured in
`custom_links` but not installed, a placeholder application entry with a
`"#"` URL and no models is appended (its transient `"order"` value is
overwritten inside the loop before use, so it is not modelled).  The
per-application `custom_links` dict built through `make_menu` is read back
via `custom_links.get(app_label, [])` inside `processApp`. -/
def get_side_menu (userPresent : Bool) (installed_apps : List String)
    (available_apps site_app_list : List InApp) (opts : MenuOptions)
    (registry : List (String × String × String)) : Except PyErr (List OutApp) :=
  if userPresent = false then Except.ok []
  else
    let apps0 := if available_apps.isEmpty then site_app_list else available_apps
    let synth := (opts.custom_links.filter (fun p => decide (pyLower p.1 ∉ installed_apps))).map
      (fun p => { name := p.1, app_label := p.1, app_url := "#",
                  has_module_perms := true, models := [] : InApp })
    (processApps opts registry (apps0 ++ synth)).map
      (fun menu => order_menus_with_order menu opts.order_menus)

/-! ## Audit-log formatting (`src/templatetags/dashub.py`, lines 532-588) -/

/-- Left-brace character, written numerically. -/
def chLBrace : Char := Char.ofNat 123

/-- Right-brace character, written numerically. -/
def chRBrace : Char := Char.ofNat 125

/-- String containing a single left brace. -/
def sLB : String := String.singleton chLBrace

/-- String containing a single right brace. -/
def sRB : String := String.singleton chRBrace

/-- Python values produced by `json.loads`: JSON documents over null,
booleans, integers, strings, arrays and objects. -/
inductive Json where
  | null
  | bool (b : Bool)
  | num (n : Int)
  | str (s : String)
  | arr (elems : List Json)
  | obj (fields : List (String × Json))

/-- Whitespace skipping of the JSON grammar. -/
def skipWs : List Char → List Char
  | [] => []
  | c :: cs => if c = ' ' ∨ c = '\n' ∨ c = '\t' ∨ c = '\r' then skipWs cs else c :: cs

/-- Unescaped character for a JSON string escape; `\uXXXX` escapes are outside
the embedded fragment and make the parse fail. -/
def escChar (c : Char) : Option Char :=
  if c = '"' then some '"'
  else if c = '\\' then some '\\'
  else if c = '/' then some '/'
  else if c = 'n' then some '\n'
  else if c = 't' then some '\t'
  else if c = 'r' then some '\r'
  else if c = 'b' then some (Char.ofNat 8)
  else if c = 'f' then some (Char.ofNat 12)
  else Option.none

/-- Parses the body of a JSON string after its opening quote, returning the
content characters and the remaining input. -/
def parseStringChars : List Char → Option (List Char × List Char)
  | [] => Option.none
  | c :: cs =>
    if c = '"' then some ([], cs)
    else if c = '\\' then
      match cs with
      | [] => Option.none
      | e :: cs2 =>
        match escChar e with
        | some ec => (parseStringChars cs2).map (fun r => (ec :: r.1, r.2))
        | Option.none => Option.none
    else (parseStringChars cs).map (fun r => (c :: r.1, r.2))

/-- Splits the leading decimal digits off a character list. -/
def takeDigits : List Char → List Char × List Char
  | [] => ([], [])
  | c :: cs =>
    if c.isDigit then
      let r := takeDigits cs
      (c :: r.1, r.2)
    else ([], c :: cs)

/-- Numeric value of a list of decimal digit characters. -/
def digitsToNat (ds : List Char) : Nat :=
  ds.foldl (fun acc c => acc * 10 + (c.toNat - 48)) 0

mutual

/-- Parses one JSON value (integers only among numbers; change messages use
none).  The `fuel` argument strictly decreases on every nested parse and is
chosen large enough from the input length by `json_loads`. -/
def parseValue : Nat → List Char → Option (Json × List Char)
  | 0, _ => Option.none
  | fuel + 1, cs =>
    match skipWs cs with
    | 'n' :: 'u' :: 'l' :: 'l' :: rest => some (Json.null, rest)
    | 't' :: 'r' :: 'u' :: 'e' :: rest => some (Json.bool true, rest)
    | 'f' :: 'a' :: 'l' :: 's' :: 'e' :: rest => some (Json.bool false, rest)
    | '"' :: rest => (parseStringChars rest).map (fun r => (Json.str (String.mk r.1), r.2))
    | '-' :: rest =>
      match takeDigits rest with
      | ([], _) => Option.none
      | (ds, rest2) => some (Json.num (-(Int.ofNat (digitsToNat ds))), rest2)
    | '[' :: rest =>
      match skipWs rest with
      | ']' :: rest2 => some (Json.arr [], rest2)
      | _ => (parseArrayItems fuel rest).map (fun r => (Json.arr r.1, r.2))
    | c :: rest =>
      if c = chLBrace then
        match skipWs rest with
        | c2 :: rest2 =>
          if c2 = chRBrace then some (Json.obj [], rest2)
          else (parseObjItems fuel rest).map (fun r => (Json.obj r.1, r.2))
        | [] => Option.none
      else if c.isDigit then
        match takeDigits (c :: rest) with
        | ([], _) => Option.none
        | (ds, rest2) => some (Json.num (Int.ofNat (digitsToNat ds)), rest2)
      else Option.none
    | [] => Option.none

/-- Parses the comma-separated items of a non-empty JSON array up to and
including the closing bracket. -/
def parseArrayItems : Nat → List Char → Option (List Json × List Char)
  | 0, _ => Option.none
  | fuel + 1, cs =>
    match parseValue fuel cs with
    | Option.none => Option.none
    | some (v, rest) =>
      match skipWs rest with
      | ',' :: rest2 =>
        match parseArrayItems fuel rest2 with
        | some (vs, rest3) => some (v :: vs, rest3)
        | Option.none => Option.none
      | ']' :: rest2 => some ([v], rest2)
      | _ => Option.none

/-- Parses the comma-separated members of a non-empty JSON object up to and
including the closing brace. -/
def parseObjItems : Nat → List Char → Option (List (String × Json) × List Char)
  | 0, _ => Option.none
  | fuel + 1, cs =>
    match skipWs cs with
    | '"' :: rest =>
      match parseStringChars rest with
      | Option.none => Option.none
      | some (key, rest2) =>
        match skipWs rest2 with
        | ':' :: rest3 =>
          match parseValue fuel rest3 with
          | Option.none => Option.none
          | some (v, rest4) =>
            match skipWs rest4 with
            | ',' :: rest5 =>
              match parseObjItems fuel rest5 with
              | some (fs, rest6) => some ((String.mk key, v) :: fs, rest6)
              | Option.none => Option.none
            | c :: rest5 =>
              if c = chRBrace then some ([(String.mk key, v)], rest5) else Option.none
            | [] => Option.none
        | _ => Option.none
    | _ => Option.none

end

/-- Embeds `json.loads` on the JSON fragment above: parses one document and
requires only whitespace to remain; `Option.none` stands for
`json.JSONDecodeError`. -/
def json_loads (s : String) : Option Json :=
  match parseValue (s.length * 2 + 8) s.data with
  | some (j, rest) => if skipWs rest = [] then some j else Option.none
  | Option.none => Option.none

/-- Python truthiness of a parsed JSON value (`if sub_message["added"]:`). -/
def jTruthy : Json → Bool
  | Json.null => false
  | Json.bool b => b
  | Json.num n => decide (n ≠ 0)
  | Json.str s => decide (s ≠ "")
  | Json.arr xs => !xs.isEmpty
  | Json.obj fs => !fs.isEmpty

/-- Decides whether `pre` is a prefix of `l`. -/
def prefixOfList (pre l : List Char) : Bool :=
  match pre, l with
  | [], _ => true
  | _ :: _, [] => false
  | a :: as, b :: bs => a == b && prefixOfList as bs

/-- Decides whether `needle` occurs as a contiguous sublist of `hay`. -/
def containsSub (hay needle : List Char) : Bool :=
  match hay with
  | [] => needle.isEmpty
  | _ :: rest => prefixOfList needle hay || containsSub rest needle

/-- Embeds Python `key in sub_message`: key membership for a dict, element
equality for a list (a string equals only an equal string), substring search
for a string, `TypeError` for non-iterable values. -/
def jContains (j : Json) (key : String) : Except PyErr Bool :=
  match j with
  | Json.obj fs => Except.ok (fs.any (fun p => p.1 == key))
  | Json.arr xs => Except.ok (xs.any (fun x =>
      match x with
      | Json.str s => s == key
      | _ => false))
  | Json.str s => Except.ok (containsSub s.data key.data)
  | _ => Except.error (PyErr.typeError "argument is not iterable")

/-- Embeds Python `sub_message[key]`: dict item access, `KeyError` when the
key is missing, `TypeError` when the value is not a dict (string indices must
be integers, and so on). -/
def jGetKey (j : Json) (key : String) : Except PyErr Json :=
  match j with
  | Json.obj fs =>
    match fs.find? (fun p => p.1 == key) with
    | some p => Except.ok p.2
    | Option.none => Except.error (PyErr.keyError key)
  | _ => Except.error (PyErr.typeError "value is not subscriptable")

mutual

/-- Structural size of a parsed JSON value, used as recursion fuel for the
repr printer (every child value has a strictly smaller size). -/
def jsonSize : Json → Nat
  | Json.null => 1
  | Json.bool _ => 1
  | Json.num _ => 1
  | Json.str _ => 1
  | Json.arr xs => 1 + jsonListSize xs
  | Json.obj fs => 1 + jsonFieldsSize fs

/-- Total size of a list of JSON values. -/
def jsonListSize : List Json → Nat
  | [] => 0
  | x :: xs => jsonSize x + jsonListSize xs

/-- Total size of the field list of a JSON object. -/
def jsonFieldsSize : List (String × Json) → Nat
  | [] => 0
  | p :: fs => jsonSize p.2 + jsonFieldsSize fs

end

/-- Single-quote character, for Python container reprs. -/
def chQuote : Char := Char.ofNat 39

/-- Embeds Python `repr` for values nested inside containers (quoted strings,
capitalised literals).  String escaping inside reprs is not reproduced; no
claim exercises container formatting. -/
def pyReprFuel : Nat → Json → String
  | 0, _ => ""
  | f + 1, j =>
    match j with
    | Json.null => "None"
    | Json.bool true => "True"
    | Json.bool false => "False"
    | Json.num n => toString n
    | Json.str s => String.singleton chQuote ++ s ++ String.singleton chQuote
    | Json.arr xs => "[" ++ String.intercalate ", " (xs.map (pyReprFuel f)) ++ "]"
    | Json.obj fs =>
      sLB ++ String.intercalate ", "
        (fs.map (fun p => String.singleton chQuote ++ p.1 ++ String.singleton chQuote ++ ": " ++
                          pyReprFuel f p.2)) ++ sRB

/-- Embeds Python `str(value)` as used by `str.format` substitution and by
`get_text_list`. -/
def pyStr (j : Json) : String :=
  match j with
  | Json.str s => s
  | Json.null => "None"
  | Json.bool true => "True"
  | Json.bool false => "False"
  | Json.num n => toString n
  | j => pyReprFuel (jsonSize j) j

/-- Embeds Python iteration over a parsed JSON value (the `changed` branch
iterates `fields`): list elements, the characters of a string, the keys of a
dict; other values raise `TypeError`. -/
def jIter : Json → Except PyErr (List Json)
  | Json.arr xs => Except.ok xs
  | Json.str s => Except.ok (s.data.map (fun c => Json.str (String.singleton c)))
  | Json.obj fs => Except.ok (fs.map (fun p => Json.str p.1))
  | _ => Except.error (PyErr.typeError "value is not iterable")

/-- Embeds Django's `get_text_list`: `""` for an empty list, the single
element's `str` for one element, otherwise the comma-joined initial elements,
the last word and the final element. -/
def get_text_list (xs : List Json) (last_word : String) : String :=
  match xs with
  | [] => ""
  | [x] => pyStr x
  | xs =>
    String.intercalate ", " (xs.dropLast.map pyStr) ++ " " ++ last_word ++ " " ++
      pyStr ((xs.getLast?).getD Json.null)

/-- One element of the list returned by `action_message_to_list`: the
`JSONDecodeError` path returns the bare message string, every other path
returns `{msg, icon, colour}` dicts. -/
inductive ActionEntry where
  | raw (s : String)
  | record (msg : String) (icon : String) (colour : String)
deriving Repr, DecidableEq

/-- Generic "changed" record (`changed(gettext(action.change_message))`). -/
def changedRecord (msg : String) : ActionEntry :=
  ActionEntry.record msg "edit" "blue"

/-- Embeds the per-sub-message body of the `action_message_to_list` loop
(lines 565-586).  `gettext` is the identity here: with no translation
catalog Django's null translation returns the message unchanged, so the
`sub_message[...]["name"] = gettext(...)` assignments do not change the
dicts and the two `changed` branches format the same `"Changed {fields}."`
message.  Each branch reads the keys in the source's evaluation order, so a
missing `"name"`/`"object"`/`"fields"` key raises `KeyError` and a non-dict
value raises `TypeError` exactly where the source would. -/
def processSubMessage (sub : Json) : Except PyErr (Option ActionEntry) := do
  let hasAdded ← jContains sub "added"
  if hasAdded then
    let addedV ← jGetKey sub "added"
    if jTruthy addedV then
      let nameV ← jGetKey addedV "name"
      let objV ← jGetKey addedV "object"
      Except.ok (some (ActionEntry.record
        ("Added " ++ pyStr nameV ++ " “" ++ pyStr objV ++ "”.") "plus-circle" "success"))
    else
      Except.ok (some (ActionEntry.record "Added." "plus-circle" "success"))
  else
    let hasChanged ← jContains sub "changed"
    if hasChanged then
      let changedV ← jGetKey sub "changed"
      let fieldsV ← jGetKey changedV "fields"
      let elems ← jIter fieldsV
      Except.ok (some (changedRecord ("Changed " ++ get_text_list elems "and" ++ ".")))
    else
      let hasDeleted ← jContains sub "deleted"
      if hasDeleted then
        let deletedV ← jGetKey sub "deleted"
        let _nameV ← jGetKey deletedV "name"
        let objV ← jGetKey deletedV "object"
        Except.ok (some (ActionEntry.record
          ("Deleted “" ++ pyStr objV ++ "”.") "trash" "danger"))
      else
        Except.ok Option.none

/-- Runs `processSubMessage` over the parsed sub-messages, collecting the
appended records in order. -/
def processSubMessages : List Json → Except PyErr (List ActionEntry)
  | [] => Except.ok []
  | sub :: rest => do
    let r ← processSubMessage sub
    let others ← processSubMessages rest
    match r with
    | some e => Except.ok (e :: others)
    | Option.none => Except.ok others

/-- Embeds `action.change_message and action.change_message[0] == "["`. -/
def startsWithBracket (msg : String) : Bool :=
  match msg.data with
  | c :: _ => c == '['
  | [] => false

/-- Embeds `action_message_to_list` from `src/templatetags/dashub.py`
(lines 532-588), as a function of the entry's `change_message` string: if the
message starts with `[`, parse it as JSON — a `JSONDecodeError` returns the
bare message as the single list element — and process every sub-message; when
no records result (including when the message does not start with `[`), fall
back to one generic `changed` record wrapping the raw message. -/
def action_message_to_list (change_message : String) : Except PyErr (List ActionEntry) :=
  if startsWithBracket change_message then
    match json_loads change_message with
    | Option.none => Except.ok [ActionEntry.raw change_message]
    | some j =>
      let subs := match j with
        | Json.arr xs => xs
        | _ => []
      (processSubMessages subs).map (fun msgs =>
        if msgs.length ≠ 0 then msgs else [changedRecord change_message])
  else Except.ok [changedRecord change_message]

/-! ## Concrete configurations used to settle the individual claims -/

/-- Menu options matching a configuration that overrides nothing the menu
builder reads: every `options.get` default from the source, with the two
default icon classes from `DEFAULT_SETTINGS`. -/
def defaultMenuOptions : MenuOptions :=
  { default_orders := [], custom_links := [], model_submenus := [], submenus_models := [],
    hide_apps := [], hide_models := [], order_menus := [], icons := [],
    default_icon_parents := "fas fa-chevron-circle-right",
    default_icon_children := "fas fa-circle" }

/-- Installed application `apps_a` with no models. -/
def appA : InApp :=
  { name := "Apps_a", app_label := "apps_a", app_url := "/admin/apps_a/",
    has_module_perms := true, models := [] }

/-- Installed application `apps_b` with no models. -/
def appB : InApp :=
  { name := "Apps_b", app_label := "apps_b", app_url := "/admin/apps_b/",
    has_module_perms := true, models := [] }

/-- Options with `order_menus = ["apps_a"]`, naming an available application. -/
def optsC1 : MenuOptions :=
  { defaultMenuOptions with order_menus := ["apps_a"] }

/-- Options with `order_menus = ["apps_b", "apps_a"]`, the ordering scenario
of the spec's testable property. -/
def optsC3 : MenuOptions :=
  { defaultMenuOptions with order_menus := ["apps_b", "apps_a"] }

/-- Already-built descriptor for `apps_a`, used to probe the final ordering
pass on its own. -/
def outAppsA : OutApp :=
  { name := "Apps_a", app_label := "apps_a", app_url := "/admin/apps_a/",
    has_module_perms := true, icon := "fas fa-chevron-circle-right", order := 0, items := [] }

/-- Already-built descriptor for `apps_b`, used to probe the final ordering
pass on its own. -/
def outAppsB : OutApp :=
  { name := "Apps_b", app_label := "apps_b", app_url := "/admin/apps_b/",
    has_module_perms := true, icon := "fas fa-chevron-circle-right", order := 0, items := [] }

/-- The `auth.User` model descriptor as the admin site supplies it. -/
def userModel : InModel :=
  { object_name := "User", name := "Users", admin_url := "/admin/auth/user/",
    add_url := "/admin/auth/user/add/", modelCount := Option.none, order := Option.none }

/-- The `auth.Group` model descriptor as the admin site supplies it. -/
def groupModel : InModel :=
  { object_name := "Group", name := "Groups", admin_url := "/admin/auth/group/",
    add_url := "/admin/auth/group/add/", modelCount := Option.none, order := Option.none }

/-- An application whose label `Auth` is not all lower-case. -/
def appAuth : InApp :=
  { name := "Authentication", app_label := "Auth", app_url := "/admin/auth/",
    has_module_perms := true, models := [userModel] }

/-- Options with `hide_apps = ["Auth"]` as resolved by `get_settings`
(lower-cased to `["auth"]`). -/
def optsC2 : MenuOptions :=
  { defaultMenuOptions with hide_apps := ["auth"] }

/-- Rebuilt `auth.user` model descriptor in the menu produced for `appAuth`
under `optsC2`. -/
def outUserC2 : OutModel :=
  { object_name := "User", name := "Users", url := "/admin/auth/user/",
    add_url := "/admin/auth/user/add/", count := 0, model_str := "auth.user",
    icon := "fas fa-circle", order := 0, submenu := Option.none }

/-- The application descriptor kept in the menu for `appAuth` under `optsC2`,
even though `auth` is in the hide list. -/
def outAppC2 : OutApp :=
  { name := "Authentication", app_label := "Auth", app_url := "/admin/auth/",
    has_module_perms := true, icon := "fas fa-chevron-circle-right", order := 0,
    items := [MenuItem.model outUserC2] }

/-- The `auth` application (lower-case label) with the user and group models. -/
def appAuthL : InApp :=
  { name := "Authentication", app_label := "auth", app_url := "/admin/auth/",
    has_module_perms := true, models := [userModel, groupModel] }

/-- Options with `hide_models = ["auth.Group"]` as resolved by `get_settings`
(lower-cased to `["auth.group"]`). -/
def optsC9 : MenuOptions :=
  { defaultMenuOptions with hide_models := ["auth.group"] }

/-- Rebuilt `auth.user` descriptor in the menu produced for `appAuthL` under
`optsC9` (the group model is dropped). -/
def outUserC9 : OutModel :=
  { object_name := "User", name := "Users", url := "/admin/auth/user/",
    add_url := "/admin/auth/user/add/", count := 0, model_str := "auth.user",
    icon := "fas fa-circle", order := 0, submenu := Option.none }

/-- The application descriptor in the menu for `appAuthL` under `optsC9`. -/
def outAppC9 : OutApp :=
  { name := "Authentication", app_label := "auth", app_url := "/admin/auth/",
    has_module_perms := true, icon := "fas fa-chevron-circle-right", order := 0,
    items := [MenuItem.model outUserC9] }

/-- The change message `[{"added": {}}]` (braces spelled through `sLB`/`sRB`). -/
def addedEmptyMsg : String :=
  "[" ++ sLB ++ "\"added\": " ++ sLB ++ sRB ++ sRB ++ "]"

/-- The `icons` value resolved by `get_settings` for an empty override
mapping. -/
def settingsIconsOfEmpty : Option Value :=
  match get_settings [] with
  | Except.ok s => dictGet s "icons"
  | Except.error _ => Option.none

/-- The settings dict just before `theme_color_rgb` is added, for an override
mapping that sets only `theme_color` to `tc`: all other keys carry their
(normalized) defaults. -/
def settledBase (tc : String) : List (String × Value) :=
  [("site_title", Value.str "Admin Dashboard"),
   ("site_header", Value.none),
   ("site_brand", Value.none),
   ("site_logo", Value.str "https://cdn.practet.com/static/logo-new.webp"),
   ("site_icon", Value.str "https://cdn.practet.com/static/logo-new.webp"),
   ("topmenu_links", Value.strlist []),
   ("hide_apps", Value.strlist []),
   ("hide_models", Value.strlist []),
   ("order_with_respect_to", Value.strlist []),
   ("order_menus", Value.strlist []),
   ("custom_links", Value.strdict []),
   ("icons", Value.strdict [("auth", "fas fa-users-cog"), ("auth.user", "fas fa-user"),
                            ("auth.group", "fas fa-users")]),
   ("default_icon_parents", Value.str "fas fa-chevron-circle-right"),
   ("default_icon_children", Value.str "fas fa-circle"),
   ("custom_css", Value.none),
   ("custom_js", Value.none),
   ("changeform_format", Value.str "horizontal_tabs"),
   ("changeform_format_overrides", Value.strdict []),
   ("language_chooser", Value.bool false),
   ("theme_color", Value.str tc)]

/-- Override mapping used to witness the amended C8: one non-null override
and one null override. -/
def ovC8 : List (String × Value) :=
  [("site_title", Value.str "Practet"), ("site_header", Value.none)]

/-- The settings dict resolved from `ovC8` (empty on the impossible error
branch). -/
def settingsOfOvC8 : List (String × Value) :=
  match get_settings ovC8 with
  | Except.ok s => s
  | Except.error _ => []

/-! ## Helper lemmas -/

theorem exbind_ok {ε α β : Type} (a : α) (f : α → Except ε β) :
    (Except.ok a >>= f : Except ε β) = f a := rfl

theorem exbind_err {ε α β : Type} (e : ε) (f : α → Except ε β) :
    (Except.error e >>= f : Except ε β) = Except.error e := rfl

theorem exmap_ok {ε α β : Type} (a : α) (f : α → β) :
    (Except.ok a : Except ε α).map f = Except.ok (f a) := rfl

theorem exmap_err {ε α β : Type} (e : ε) (f : α → β) :
    (Except.error e : Except ε α).map f = (Except.error e : Except ε β) := rfl

theorem mem_insertSorted {α : Type} (le : α → α → Bool) (a b : α) (l : List α) :
    b ∈ insertSorted le a l ↔ b = a ∨ b ∈ l := by
  induction l with
  | nil => simp [insertSorted]
  | cons c cs ih =>
    simp only [insertSorted]
    split <;> simp only [List.mem_cons, ih] <;> tauto

theorem mem_stableSortBy_aux {α : Type} (le : α → α → Bool) (b : α) :
    ∀ (xs acc : List α),
      (b ∈ xs.foldl (fun acc a => insertSorted le a acc) acc ↔ b ∈ acc ∨ b ∈ xs) := by
  intro xs
  induction xs with
  | nil => intro acc; simp
  | cons x xs ih =>
    intro acc
    simp only [List.foldl_cons, ih, mem_insertSorted, List.mem_cons]
    tauto

theorem mem_stableSortBy {α : Type} (le : α → α → Bool) (b : α) (xs : List α) :
    b ∈ stableSortBy le xs ↔ b ∈ xs := by
  unfold stableSortBy
  rw [mem_stableSortBy_aux]
  simp

theorem mem_sortByAsc {α : Type} (key : α → Int) (b : α) (xs : List α) :
    b ∈ sortByAsc key xs ↔ b ∈ xs := by
  unfold sortByAsc; exact mem_stableSortBy _ _ _

theorem mem_sortByDesc {α : Type} (key : α → Int) (b : α) (xs : List α) :
    b ∈ sortByDesc key xs ↔ b ∈ xs := by
  unfold sortByDesc; exact mem_stableSortBy _ _ _

theorem dictGet_dictSet_self {α : Type} (d : List (String × α)) (k : String) (v : α) :
    dictGet (dictSet d k v) k = some v := by
  induction d with
  | nil => simp [dictSet, dictGet]
  | cons p rest ih =>
    simp only [dictSet]
    split
    · simp [dictGet]
    · rename_i hne
      simp only [dictGet, List.find?] at ih ⊢
      have : (p.1 == k) = false := by
        simpa using hne
      rw [this]
      exact ih

theorem dictGet_dictSet_ne {α : Type} (d : List (String × α)) (k k2 : String) (v : α)
    (h : k ≠ k2) : dictGet (dictSet d k v) k2 = dictGet d k2 := by
  induction d with
  | nil =>
    simp only [dictSet, dictGet, List.find?]
    have : (k == k2) = false := by simpa using h
    simp [this]
  | cons p rest ih =>
    simp only [dictSet]
    split
    · rename_i heq
      simp only [dictGet, List.find?]
      have h1 : (k == k2) = false := by simpa using h
      have h2 : (p.1 == k2) = false := by
        subst heq
        simpa using h
      simp [h1, h2]
    · simp only [dictGet, List.find?] at ih ⊢
      cases hpk : p.1 == k2 with
      | true => simp
      | false => simpa [hpk] using ih

/-! ## Claim theorems -/

/-- Claim C1.  The claim states that `get_side_menu` never raises for any
settings configuration, including ones with entries in `order_menus`.  The
code contradicts this: with `order_menus = ["apps_a"]` and an available
application labelled `apps_a`, the expression
`order_menus[app_label] if app_label in order_menus` at `dashub.py:115`
indexes the `order_menus` list with a string and raises `TypeError` instead
of returning a menu. -/
theorem C1_order_menus_raises :
    get_side_menu true [] [appA] [] optsC1 [] =
      Except.error (PyErr.typeError "list indices must be integers or slices, not str") := rfl

/-- Claim C3.  In the claim's own scenario — `order_menus = ["apps_b",
"apps_a"]` with available applications `apps_a` and `apps_b` — the source does
not return a menu at all: `order_menus[app_label]` at `dashub.py:115` indexes
the `order_menus` list with the string `"apps_a"` and raises `TypeError`
before `order_menus_with_order` can sort anything. -/
theorem C3_order_scenario_raises :
    get_side_menu true [] [appA, appB] [] optsC3 [] =
      Except.error (PyErr.typeError "list indices must be integers or slices, not str") := rfl

/-- Supporting fact for C3: the final ordering pass taken on its own, with the
claim's configuration `order_menus = ["apps_b", "apps_a"]`, sorts listed
applications by descending list position (`reverse=True` over the enumeration
index), so `apps_a` (position 1) comes before `apps_b` (position 0) whatever
their input order — the opposite of the claimed order even apart from the
`TypeError` at `dashub.py:115`. -/
theorem C3_ordering_pass_direction :
    (order_menus_with_order [outAppsA, outAppsB] ["apps_b", "apps_a"]).map
        (fun a => a.app_label) = ["apps_a", "apps_b"] ∧
    (order_menus_with_order [outAppsB, outAppsA] ["apps_b", "apps_a"]).map
        (fun a => a.app_label) = ["apps_a", "apps_b"] := ⟨rfl, rfl⟩

/-- Claim C6: `action_message_to_list` on the change message
`[{"added": {}}]` yields exactly one record, with message `"Added."`, icon
`"plus-circle"` and colour `"success"`. -/
theorem C6_added_empty :
    action_message_to_list addedEmptyMsg =
      Except.ok [ActionEntry.record "Added." "plus-circle" "success"] := rfl

/-- Claim C7: whenever the change message starts with `[` and parses as a
JSON array whose processing yields zero display records, the result is one
generic `changed` record (icon `edit`, colour `blue`) wrapping the raw
message text. -/
theorem C7_empty_yields_generic (msg : String) (subs : List Json)
    (h0 : startsWithBracket msg = true)
    (h1 : json_loads msg = some (Json.arr subs))
    (h2 : processSubMessages subs = Except.ok []) :
    action_message_to_list msg = Except.ok [ActionEntry.record msg "edit" "blue"] := by
  unfold action_message_to_list
  rw [h0, if_pos rfl, h1]
  simp only [h2, exmap_ok]
  simp [changedRecord]

/-- Witness for C7 at the concrete message `"[]"`. -/
theorem C7_witness :
    action_message_to_list "[]" = Except.ok [ActionEntry.record "[]" "edit" "blue"] :=
  C7_empty_yields_generic "[]" [] rfl rfl rfl

/-- Claim C4: an adminform with no grouped fieldsets and no inline formsets
always resolves to the `single` layout's template, whatever the configured
`changeform_format` and whatever per-model overrides exist. -/
theorem C4_force_single (opts : ChangeformOptions) (af : AdminFormInfo)
    (hf : af.has_fieldsets = false) (hi : af.inlines = []) :
    get_changeform_template opts af = "practet_dashboard/includes/single.html" := by
  unfold get_changeform_template
  rw [hf, hi]
  simp [ctGet, ctLookup, CHANGEFORM_TEMPLATES, dictGet]

/-- Witness for C4: the override and the global format both name other
layouts, yet the template is `single`. -/
theorem C4_witness :
    get_changeform_template ⟨"carousel", [("polls.question", "vertical_tabs")]⟩
      ⟨false, [], "polls", "question"⟩ = "practet_dashboard/includes/single.html" :=
  C4_force_single _ _ rfl rfl

theorem ct_core (hf hi : Bool) (cf : String) :
    ctLookup (if hf = false ∧ hi = false then "single"
              else if cf = "" ∨ (ctLookup cf).isSome = false then "horizontal_tabs"
              else cf)
      = some (if hf = false ∧ hi = false then ctGet "single"
              else if cf = "" ∨ (ctLookup cf).isSome = false then ctGet "horizontal_tabs"
              else ctGet cf) := by
  split
  · rfl
  · split
    · rfl
    · rename_i hcond
      cases hcl : ctLookup cf with
      | none =>
        exact absurd (Or.inr (by simp [hcl])) hcond
      | some t =>
        simp [ctGet, hcl]

/-- Claim C10: for every adminform and settings slice,
`get_changeform_template` returns exactly `CHANGEFORM_TEMPLATES` applied to
`get_changeform_template_class`: the two selectors resolve the format
identically and differ only in returning the template path versus the layout
name. -/
theorem C10_template_matches_class (opts : ChangeformOptions) (af : AdminFormInfo) :
    ctLookup (get_changeform_template_class opts af) =
      some (get_changeform_template opts af) :=
  ct_core af.has_fieldsets (!af.inlines.isEmpty)
    (match dictGet opts.changeform_format_overrides
        (pyLower (af.app_label ++ "." ++ af.model_name)) with
     | some v => v
     | Option.none => opts.changeform_format)

theorem processModel_some (opts : MenuOptions) (reg : List (String × String × String))
    (lbl : String) (m : InModel) (it : MenuItem)
    (h : processModel opts reg lbl m = Except.ok (some it)) :
    ∃ om, it = MenuItem.model om ∧ om.object_name = m.object_name ∧
      om.model_str = pyLower (lbl ++ "." ++ m.object_name) ∧
      om.model_str ∉ opts.hide_models := by
  simp only [processModel] at h
  split at h
  · exact absurd h (by simp)
  · rename_i hhid
    split at h
    · cases hb : buildSubmenu opts reg m (pyLower (lbl ++ "." ++ m.object_name)) with
      | error e =>
        rw [hb] at h
        simp only [Except.map] at h
        exact Except.noConfusion h
      | ok sub =>
        rw [hb] at h
        simp only [Except.map, Except.ok.injEq, Option.some.injEq] at h
        exact ⟨_, h.symm, rfl, rfl, hhid⟩
    · simp only [Except.ok.injEq, Option.some.injEq] at h
      exact ⟨_, h.symm, rfl, rfl, hhid⟩

theorem processModels_mem (opts : MenuOptions) (reg : List (String × String × String))
    (lbl : String) :
    ∀ (ms : List InModel) (items : List MenuItem),
      processModels opts reg lbl ms = Except.ok items →
      ∀ it ∈ items, ∃ m ∈ ms, processModel opts reg lbl m = Except.ok (some it) := by
  intro ms
  induction ms with
  | nil =>
    intro items h it hit
    simp only [processModels, Except.ok.injEq] at h
    rw [← h] at hit
    simp at hit
  | cons m ms ih =>
    intro items h it hit
    simp only [processModels] at h
    cases hr : processModel opts reg lbl m with
    | error e => rw [hr] at h; simp [exbind_err] at h
    | ok r =>
      rw [hr] at h
      rw [exbind_ok] at h
      cases hrest : processModels opts reg lbl ms with
      | error e => rw [hrest] at h; simp [exbind_err] at h
      | ok rest =>
        rw [hrest] at h
        rw [exbind_ok] at h
        cases r with
        | some item =>
          simp only [Except.ok.injEq] at h
          rw [← h] at hit
          rcases List.mem_cons.mp hit with hhead | htail
          · exact ⟨m, List.mem_cons_self m ms, by rw [hhead]; exact hr⟩
          · rcases ih rest hrest it htail with ⟨m2, hm2, hp2⟩
            exact ⟨m2, List.mem_cons_of_mem m hm2, hp2⟩
        | none =>
          simp only [Except.ok.injEq] at h
          rw [← h] at hit
          rcases ih rest hrest it hit with ⟨m2, hm2, hp2⟩
          exact ⟨m2, List.mem_cons_of_mem m hm2, hp2⟩

theorem processApp_some (opts : MenuOptions) (reg : List (String × String × String))
    (app : InApp) (a : OutApp) (h : processApp opts reg app = Except.ok (some a)) :
    a.app_label = app.app_label ∧ a.app_label ∉ opts.hide_apps ∧
    ∀ it ∈ a.items,
      (∃ m ∈ app.models, processModel opts reg app.app_label m = Except.ok (some it)) ∨
      (∃ l, it = MenuItem.link l) := by
  simp only [processApp] at h
  split at h
  · exact absurd h (by simp)
  · rename_i hhid
    split at h
    · exact absurd h (by simp)
    · cases hm : processModels opts reg app.app_label app.models with
      | error e =>
        rw [hm] at h
        simp only [Except.bind] at h
        exact Except.noConfusion h
      | ok items0 =>
        rw [hm] at h
        simp only [Except.bind] at h
        split at h
        · exact absurd h (by simp)
        · simp only [Except.ok.injEq, Option.some.injEq] at h
          subst h
          refine ⟨rfl, hhid, ?_⟩
          intro it hit
          simp only at hit
          rw [mem_sortByAsc] at hit
          rcases List.mem_append.mp hit with hmod | hlink
          · exact Or.inl (processModels_mem opts reg app.app_label app.models items0 hm it hmod)
          · rcases List.mem_map.mp hlink with ⟨l, _, hl⟩
            exact Or.inr ⟨l, hl.symm⟩

theorem processApps_mem (opts : MenuOptions) (reg : List (String × String × String)) :
    ∀ (apps : List InApp) (menu : List OutApp),
      processApps opts reg apps = Except.ok menu →
      ∀ a ∈ menu, ∃ app ∈ apps, processApp opts reg app = Except.ok (some a) := by
  intro apps
  induction apps with
  | nil =>
    intro menu h a ha
    simp only [processApps, Except.ok.injEq] at h
    rw [← h] at ha
    simp at ha
  | cons app apps ih =>
    intro menu h a ha
    simp only [processApps] at h
    cases hr : processApp opts reg app with
    | error e => rw [hr] at h; simp [exbind_err] at h
    | ok r =>
      rw [hr] at h
      rw [exbind_ok] at h
      cases hrest : processApps opts reg apps with
      | error e => rw [hrest] at h; simp [exbind_err] at h
      | ok others =>
        rw [hrest] at h
        rw [exbind_ok] at h
        cases r with
        | some oa =>
          simp only [Except.ok.injEq] at h
          rw [← h] at ha
          rcases List.mem_cons.mp ha with hhead | htail
          · exact ⟨app, List.mem_cons_self app apps, by rw [hhead]; exact hr⟩
          · rcases ih others hrest a htail with ⟨app2, happ2, hp2⟩
            exact ⟨app2, List.mem_cons_of_mem app happ2, hp2⟩
        | none =>
          simp only [Except.ok.injEq] at h
          rw [← h] at ha
          rcases ih others hrest a ha with ⟨app2, happ2, hp2⟩
          exact ⟨app2, List.mem_cons_of_mem app happ2, hp2⟩

theorem order_menus_with_order_mem (menu : List OutApp) (om : List String) (a : OutApp)
    (h : a ∈ order_menus_with_order menu om) :
    ∃ b ∈ menu, a.app_label = b.app_label ∧ a.items = sort_models b.items := by
  unfold order_menus_with_order at h
  rw [mem_sortByDesc] at h
  rcases List.mem_map.mp h with ⟨b, hb, hba⟩
  exact ⟨b, hb, by rw [← hba], by rw [← hba]⟩

theorem sort_models_mem (items : List MenuItem) (it : MenuItem) (h : it ∈ sort_models items) :
    ∃ it0 ∈ items, it = sortSubmenusInItem it0 := by
  unfold sort_models at h
  rw [mem_sortByDesc] at h
  rcases List.mem_map.mp h with ⟨it0, hit0, hs⟩
  exact ⟨it0, hit0, hs.symm⟩

theorem sortSubmenusInItem_model (it0 : MenuItem) (m : OutModel)
    (h : sortSubmenusInItem it0 = MenuItem.model m) :
    ∃ m0, it0 = MenuItem.model m0 ∧ m0.model_str = m.model_str ∧
      m0.object_name = m.object_name := by
  cases it0 with
  | model m0 =>
    simp only [sortSubmenusInItem, MenuItem.model.injEq] at h
    exact ⟨m0, rfl, by rw [← h], by rw [← h]⟩
  | link l => simp [sortSubmenusInItem] at h

theorem get_side_menu_ok (userP : Bool) (inst : List String) (avail site : List InApp)
    (opts : MenuOptions) (reg : List (String × String × String)) (menu : List OutApp)
    (h : get_side_menu userP inst avail site opts reg = Except.ok menu) :
    menu = [] ∨
    ∃ menu0, processApps opts reg
        ((if avail.isEmpty then site else avail) ++
          (opts.custom_links.filter (fun p => decide (pyLower p.1 ∉ inst))).map
            (fun p => { name := p.1, app_label := p.1, app_url := "#",
                        has_module_perms := true, models := [] : InApp })) = Except.ok menu0 ∧
      menu = order_menus_with_order menu0 opts.order_menus := by
  simp only [get_side_menu] at h
  split at h
  · simp only [Except.ok.injEq] at h
    exact Or.inl h.symm
  · cases hp : processApps opts reg
        ((if avail.isEmpty then site else avail) ++
          (opts.custom_links.filter (fun p => decide (pyLower p.1 ∉ inst))).map
            (fun p => { name := p.1, app_label := p.1, app_url := "#",
                        has_module_perms := true, models := [] : InApp })) with
    | error e =>
      rw [hp] at h
      simp only [Except.map] at h
      exact Except.noConfusion h
    | ok menu0 =>
      rw [hp] at h
      simp only [Except.map, Except.ok.injEq] at h
      exact Or.inr ⟨menu0, rfl, h.symm⟩

/-- Claim C2, amended: hiding compares the application's label verbatim
against the lower-cased `hide_apps` entries, so every application whose exact
label occurs in the resolved hide list is absent from the built menu (labels
differing only in case are not hidden — see the counterexample). -/
theorem C2_amended_hide_apps (userP : Bool) (inst : List String) (avail site : List InApp)
    (opts : MenuOptions) (reg : List (String × String × String)) (menu : List OutApp)
    (h : get_side_menu userP inst avail site opts reg = Except.ok menu) :
    ∀ a ∈ menu, a.app_label ∉ opts.hide_apps := by
  intro a ha
  rcases get_side_menu_ok userP inst avail site opts reg menu h with hnil | ⟨menu0, hp, hord⟩
  · rw [hnil] at ha; simp at ha
  · rw [hord] at ha
    rcases order_menus_with_order_mem menu0 opts.order_menus a ha with ⟨b, hb, hlbl, _⟩
    rcases processApps_mem opts reg _ menu0 hp b hb with ⟨app, _, hpa⟩
    rw [hlbl]
    exact (processApp_some opts reg app b hpa).2.1

/-- Counterexample to claim C2 as stated: with `hide_apps = ["Auth"]`
(lower-cased to `["auth"]` by settings resolution) and an available
application labelled `Auth`, the built menu still contains that application —
the source never lower-cases `app_label` before the membership test at
`dashub.py:111`, so the comparison fails for a mixed-case label. -/
theorem C2_counterexample :
    ((get_side_menu true [] [appAuth] [] optsC2 []).map
        (fun menu => menu.map (fun a => a.app_label)) = Except.ok ["Auth"]) ∧
    optsC2.hide_apps = List.map pyLower ["Auth"] ∧
    pyLower "Auth" ∈ optsC2.hide_apps := by
  refine ⟨rfl, by decide, by decide⟩

/-- Witness for the amended claim C2 at a concrete input: the surviving
application's label is not in the resolved hide list. -/
theorem C2_amended_witness : outAppC2.app_label ∉ optsC2.hide_apps :=
  C2_amended_hide_apps true [] [appAuth] [] optsC2 [] [outAppC2] rfl outAppC2
    (List.mem_singleton.mpr rfl)

/-- Claim C9: every model whose lower-cased `"app_label.model_name"` key is in
the (lower-cased) `hide_models` list is absent from the built menu — each
model descriptor kept under an application carries a `model_str` equal to the
lower-cased key built from that application's label, and that key is not in
`hide_models`. -/
theorem C9_hidden_models (userP : Bool) (inst : List String) (avail site : List InApp)
    (opts : MenuOptions) (reg : List (String × String × String)) (menu : List OutApp)
    (rawHide : List String) (hlow : opts.hide_models = rawHide.map pyLower)
    (h : get_side_menu userP inst avail site opts reg = Except.ok menu) :
    ∀ a ∈ menu, ∀ it ∈ a.items, ∀ m, it = MenuItem.model m →
      m.model_str = pyLower (a.app_label ++ "." ++ m.object_name) ∧
      m.model_str ∉ List.map pyLower rawHide := by
  intro a ha it hit m hm
  rcases get_side_menu_ok userP inst avail site opts reg menu h with hnil | ⟨menu0, hp, hord⟩
  · rw [hnil] at ha; simp at ha
  · rw [hord] at ha
    rcases order_menus_with_order_mem menu0 opts.order_menus a ha with ⟨b, hb, hlbl, hitems⟩
    rw [hitems] at hit
    rcases sort_models_mem b.items it hit with ⟨it0, hit0, hs⟩
    rw [hm] at hs
    rcases sortSubmenusInItem_model it0 m hs.symm with ⟨m0, hm0, hstr, hobj⟩
    rcases processApps_mem opts reg _ menu0 hp b hb with ⟨app, _, hpa⟩
    rcases processApp_some opts reg app b hpa with ⟨hblbl, _, hitem⟩
    rcases hitem it0 hit0 with hmod | ⟨l, hl⟩
    · rcases hmod with ⟨minp, _, hpm⟩
      rw [hm0] at hpm
      rcases processModel_some opts reg app.app_label minp (MenuItem.model m0) hpm with
        ⟨om, hom, homn, homs, homh⟩
      have hom0 : om = m0 := by
        cases hom; rfl
      rw [hom0] at homn homs homh
      constructor
      · rw [← hstr, homs, hlbl, hblbl, ← hobj, homn]
      · rw [← hstr]
        rw [hlow] at homh
        exact homh
    · rw [hm0] at hl
      cases hl

/-- Witness for C9 at a concrete input: with `hide_models = ["auth.Group"]`
the surviving `auth.user` descriptor carries the lower-cased key and that key
is not hidden. -/
theorem C9_witness :
    outUserC9.model_str = pyLower ("auth" ++ "." ++ outUserC9.object_name) ∧
    outUserC9.model_str ∉ List.map pyLower ["auth.Group"] :=
  C9_hidden_models true [] [appAuthL] [] optsC9 [] [outAppC9] ["auth.Group"]
    (by decide) rfl outAppC9 (List.mem_singleton.mpr rfl)
    (MenuItem.model outUserC9) (by simp [outAppC9]) outUserC9 rfl

theorem hexVal_le (c : Char) (x : Nat) (h : hexVal c = some x) : x ≤ 15 := by
  simp only [hexVal] at h
  split at h
  · rename_i hc; injection h with h; omega
  · split at h
    · rename_i hc; injection h with h; omega
    · split at h
      · rename_i hc; injection h with h; omega
      · exact Option.noConfusion h

theorem hexPair_le (a b : Char) (x : Nat) (h : hexPair a b = some x) : x ≤ 255 := by
  simp only [hexPair] at h
  split at h
  · rename_i x1 y1 ha hb
    injection h with h
    have h1 := hexVal_le a x1 ha
    have h2 := hexVal_le b y1 hb
    omega
  · exact Option.noConfusion h

theorem hexChannels_le (cs : List Char) (r g b : Nat)
    (h : hexChannels cs = some (r, g, b)) : r ≤ 255 ∧ g ≤ 255 ∧ b ≤ 255 := by
  unfold hexChannels at h
  split at h
  · split at h
    · rename_i r0 g0 b0 hr hg hb
      injection h with h
      simp only [Prod.mk.injEq] at h
      obtain ⟨h1, h2, h3⟩ := h
      subst h1; subst h2; subst h3
      exact ⟨hexPair_le _ _ _ hr, hexPair_le _ _ _ hg, hexPair_le _ _ _ hb⟩
    · exact Option.noConfusion h
  · exact Option.noConfusion h

theorem exbind_ok_inv {ε α β : Type} {x : Except ε α} {f : α → Except ε β} {b : β}
    (h : (x >>= f) = Except.ok b) : ∃ a, x = Except.ok a ∧ f a = Except.ok b := by
  cases x with
  | error e => rw [exbind_err] at h; exact Except.noConfusion h
  | ok a => exact ⟨a, rfl, by rw [exbind_ok] at h; exact h⟩

theorem get_settings_theme (tc : String) :
    get_settings [("theme_color", Value.str tc)] =
      (themeColorValue (Value.str tc)) >>= (fun rgbv =>
        Except.ok (dictSet (settledBase tc) "theme_color_rgb" rgbv)) := rfl

/-- Claim C5: for every theme color string, `hex_to_rgb` succeeds exactly on
the `#RRGGBB` shape (6 hex digits after an optional `#`); on success the
parsed channels are each at most 255 and `get_settings` stores them under
`theme_color_rgb`; on a malformed string settings resolution fails instead of
returning a tuple. -/
theorem C5_theme_color_rgb (tc : String) :
    ((∃ p, hex_to_rgb tc = Except.ok p) ↔ isHexForm tc = true) ∧
    (∀ r g b : Nat, hex_to_rgb tc = Except.ok (r, g, b) →
      r ≤ 255 ∧ g ≤ 255 ∧ b ≤ 255 ∧
      ∃ s, get_settings [("theme_color", Value.str tc)] = Except.ok s ∧
        dictGet s "theme_color_rgb" = some (Value.rgb r g b)) ∧
    (isHexForm tc = false →
      get_settings [("theme_color", Value.str tc)] =
        Except.error (PyErr.valueError "malformed hex color")) := by
  refine ⟨?_, ?_, ?_⟩
  · unfold hex_to_rgb isHexForm
    cases hch : hexChannels (stripHash tc.data) with
    | none => simp
    | some p => simp
  · intro r g b h
    have hch : hexChannels (stripHash tc.data) = some (r, g, b) := by
      unfold hex_to_rgb at h
      split at h
      · rename_i p hp
        injection h with h
        rw [h] at hp
        exact hp
      · exact Except.noConfusion h
    obtain ⟨b1, b2, b3⟩ := hexChannels_le _ _ _ _ hch
    refine ⟨b1, b2, b3, dictSet (settledBase tc) "theme_color_rgb" (Value.rgb r g b),
            ?_, dictGet_dictSet_self _ _ _⟩
    rw [get_settings_theme]
    simp only [themeColorValue, h, Except.map, exbind_ok]
  · intro hform
    have herr : hex_to_rgb tc = Except.error (PyErr.valueError "malformed hex color") := by
      unfold isHexForm at hform
      unfold hex_to_rgb
      cases hch : hexChannels (stripHash tc.data) with
      | none => simp
      | some p => rw [hch] at hform; simp at hform
    rw [get_settings_theme]
    simp only [themeColorValue, herr, Except.map, exbind_err]

/-- Witness for C5 at the default theme color `#e31837`. -/
theorem C5_witness :
    isHexForm "#e31837" = true ∧
    ∃ s, get_settings [("theme_color", Value.str "#e31837")] = Except.ok s ∧
      dictGet s "theme_color_rgb" = some (Value.rgb 227 24 55) := by
  refine ⟨by decide, ?_⟩
  have h := (C5_theme_color_rgb "#e31837").2.1 227 24 55 (by decide)
  exact h.2.2.2

theorem dictGet_cons {α : Type} (p : String × α) (rest : List (String × α)) (k : String) :
    dictGet (p :: rest) k = if p.1 = k then some p.2 else dictGet rest k := by
  unfold dictGet
  by_cases hp : p.1 = k
  · rw [List.find?_cons_of_pos _ (by simpa using hp), if_pos hp]
  · rw [List.find?_cons_of_neg _ (by simpa using hp), if_neg hp]

theorem dictGet_not_mem_keys {α : Type} (d : List (String × α)) (k : String)
    (h : k ∉ d.map Prod.fst) : dictGet d k = Option.none := by
  induction d with
  | nil => rfl
  | cons p rest ih =>
    simp only [List.map_cons, List.mem_cons] at h
    push_neg at h
    rw [dictGet_cons, if_neg (fun he => h.1 he.symm)]
    exact ih h.2

theorem dictGet_filter_none (d : List (String × Value)) (k : String)
    (hnd : (d.map Prod.fst).Nodup) :
    dictGet (d.filter (fun p => p.2 ≠ Value.none)) k =
      match dictGet d k with
      | some v => if v = Value.none then Option.none else some v
      | Option.none => Option.none := by
  induction d with
  | nil => rfl
  | cons p rest ih =>
    simp only [List.map_cons, List.nodup_cons] at hnd
    obtain ⟨hp, hrest⟩ := hnd
    rw [List.filter_cons, dictGet_cons]
    by_cases hpk : p.1 = k
    · by_cases hv : p.2 = Value.none
      · have hcond : decide (p.2 ≠ Value.none) = false := by simp [hv]
        rw [hcond]
        simp only [Bool.false_eq_true, if_false, if_pos hpk, if_pos hv]
        rw [ih hrest]
        have hnone : dictGet rest k = Option.none := by
          apply dictGet_not_mem_keys
          rw [← hpk]
          exact fun hin => hp (by simpa using hin)
        rw [hnone]
      · have hcond : decide (p.2 ≠ Value.none) = true := by simp [hv]
        rw [hcond]
        simp only [if_true, if_pos hv]
        rw [dictGet_cons, if_pos hpk, if_pos hpk]
        simp [hv]
    · by_cases hv : p.2 = Value.none
      · have hcond : decide (p.2 ≠ Value.none) = false := by simp [hv]
        rw [hcond]
        simp only [Bool.false_eq_true, if_false, if_neg hpk]
        exact ih hrest
      · have hcond : decide (p.2 ≠ Value.none) = true := by simp [hv]
        rw [hcond]
        simp only [if_true]
        rw [dictGet_cons, if_neg hpk]
        rw [if_neg hpk]
        exact ih hrest

theorem dictGet_dictUpdate {α : Type} (us : List (String × α)) (d : List (String × α))
    (k : String) (hnd : (us.map Prod.fst).Nodup) :
    dictGet (dictUpdate d us) k =
      match dictGet us k with
      | some v => some v
      | Option.none => dictGet d k := by
  induction us generalizing d with
  | nil => rfl
  | cons p rest ih =>
    simp only [List.map_cons, List.nodup_cons] at hnd
    obtain ⟨hp, hrest⟩ := hnd
    simp only [dictUpdate, List.foldl_cons]
    have hstep : (List.foldl (fun acc q => dictSet acc q.1 q.2) (dictSet d p.1 p.2) rest) =
        dictUpdate (dictSet d p.1 p.2) rest := rfl
    rw [hstep, ih (dictSet d p.1 p.2) hrest, dictGet_cons]
    by_cases hpk : p.1 = k
    · have hnone : dictGet rest k = Option.none := by
        apply dictGet_not_mem_keys
        rw [← hpk]
        exact fun hin => hp (by simpa using hin)
      rw [hnone, if_pos hpk]
      rw [← hpk]
      exact dictGet_dictSet_self d p.1 p.2
    · rw [if_neg hpk]
      cases hr : dictGet rest k with
      | none => exact dictGet_dictSet_ne d p.1 k p.2 hpk
      | some v => rfl

theorem get_settings_shape (ov s : List (String × Value)) (h : get_settings ov = Except.ok s) :
    ∃ ha hm ic sv cf rgbv,
      s = dictSet (dictSet (dictSet (dictSet (dictSet (dictSet
            (dictUpdate DEFAULT_SETTINGS (ov.filter (fun p => p.2 ≠ Value.none)))
            "hide_apps" ha) "hide_models" hm) "icons" ic) "site_icon" sv)
            "changeform_format_overrides" cf) "theme_color_rgb" rgbv := by
  simp only [get_settings] at h
  obtain ⟨ha0, _, h⟩ := exbind_ok_inv h
  obtain ⟨ha, _, h⟩ := exbind_ok_inv h
  obtain ⟨hm0, _, h⟩ := exbind_ok_inv h
  obtain ⟨hm, _, h⟩ := exbind_ok_inv h
  obtain ⟨ic, _, h⟩ := exbind_ok_inv h
  obtain ⟨si, _, h⟩ := exbind_ok_inv h
  obtain ⟨sl, _, h⟩ := exbind_ok_inv h
  obtain ⟨cf, _, h⟩ := exbind_ok_inv h
  obtain ⟨rgbv, _, h⟩ := exbind_ok_inv h
  simp only [Except.ok.injEq] at h
  exact ⟨ha, hm, ic, _, cf, rgbv, h.symm⟩

/-- Claim C8, amended: the merge semantics of the claim — non-null overrides
replace the default, null or absent overrides keep it — holds for every key
that `get_settings` does not post-process; the post-processed keys
(`hide_apps`, `hide_models`, `icons`, `site_icon`,
`changeform_format_overrides` and the derived `theme_color_rgb`) are
normalized after the merge, so the claim as stated fails for them (see the
counterexample). -/
theorem C8_amended_overrides (ov : List (String × Value)) (k : String)
    (s : List (String × Value)) (hnd : (ov.map Prod.fst).Nodup)
    (hk1 : k ≠ "hide_apps") (hk2 : k ≠ "hide_models") (hk3 : k ≠ "icons")
    (hk4 : k ≠ "site_icon") (hk5 : k ≠ "changeform_format_overrides")
    (hk6 : k ≠ "theme_color_rgb")
    (h : get_settings ov = Except.ok s) :
    dictGet s k =
      match dictGet ov k with
      | some v => if v = Value.none then dictGet DEFAULT_SETTINGS k else some v
      | Option.none => dictGet DEFAULT_SETTINGS k := by
  obtain ⟨ha, hm, ic, sv, cf, rgbv, hs⟩ := get_settings_shape ov s h
  subst hs
  rw [dictGet_dictSet_ne _ _ _ _ (Ne.symm hk6), dictGet_dictSet_ne _ _ _ _ (Ne.symm hk5),
      dictGet_dictSet_ne _ _ _ _ (Ne.symm hk4), dictGet_dictSet_ne _ _ _ _ (Ne.symm hk3),
      dictGet_dictSet_ne _ _ _ _ (Ne.symm hk2), dictGet_dictSet_ne _ _ _ _ (Ne.symm hk1)]
  have hfnd : ((ov.filter (fun p => p.2 ≠ Value.none)).map Prod.fst).Nodup :=
    hnd.sublist ((List.filter_sublist ov).map Prod.fst)
  rw [dictGet_dictUpdate _ _ _ hfnd, dictGet_filter_none ov k hnd]
  cases hov : dictGet ov k with
  | none => rfl
  | some v =>
    by_cases hv : v = Value.none
    · simp [hv]
    · simp [hv]

/-- Witness for the amended C8: a non-null override replaces the default and
a null override keeps it. -/
theorem C8_amended_witness :
    dictGet settingsOfOvC8 "site_title" = some (Value.str "Practet") ∧
    dictGet settingsOfOvC8 "site_header" = dictGet DEFAULT_SETTINGS "site_header" := by
  have hs : get_settings ovC8 = Except.ok settingsOfOvC8 := by decide
  constructor
  · have h := C8_amended_overrides ovC8 "site_title" settingsOfOvC8 (by decide)
      (by decide) (by decide) (by decide) (by decide) (by decide) (by decide) hs
    rw [h]; decide
  · have h := C8_amended_overrides ovC8 "site_header" settingsOfOvC8 (by decide)
      (by decide) (by decide) (by decide) (by decide) (by decide) (by decide) hs
    rw [h]; decide

/-- Counterexample to claim C8 as stated: with an empty override mapping the
key `icons` does not keep its default — `get_settings` lower-cases the icon
keys, turning the default `auth.Group` entry into `auth.group`, so the
returned value differs from the default. -/
theorem C8_counterexample :
    exceptIsOk (get_settings []) = true ∧
    settingsIconsOfEmpty ≠ dictGet DEFAULT_SETTINGS "icons" := by
  refine ⟨by decide, by decide⟩

end Practet
